import Mathlib

/-!
# azure-devops-exporter: the hashed metric list and the collector start-up

A shallow embedding of

* `vendor/github.com/webdevops/go-prometheus-common/hashed_metric_list.go`
  (`HashedMetricList`: `Reset`, `GetList`, `Inc`, `LoadFromCache`, `StoreToCache`), and
* `src/main.go` (`opts`, `initArgparser`, `initMetricCollector`),

followed by the properties proved about them.

Conventions.

* Go pointers are addresses (indices) into an explicit store; `*MetricRow` cells, the
  `map[string]*MetricRow` objects and the `[]MetricRow` backing arrays each have their own store.
* Go leaves the enumeration order of `range` over a map unspecified.  Where the order is
  observable (`Inc`), the order chosen by the runtime is an explicit argument.
* The mutex only serialises callers; the embedding is sequential and leaves it out.
* A Go panic is an explicit result.
-/

set_option autoImplicit false

/-! ## `crypto/sha256` and `fmt.Sprintf("%x", ...)`

The Go standard library is not part of the repository; `Sum256` below is SHA-256 as defined by
FIPS 180-4, which is what `sha256.Sum256` computes.  Words are natural numbers reduced
modulo `2^32`. -/

namespace Sha256

/-- Round constants of SHA-256. -/
def K : List Nat :=
  [0x428a2f98, 0x71374491, 0xb5c0fbcf, 0xe9b5dba5, 0x3956c25b, 0x59f111f1, 0x923f82a4, 0xab1c5ed5,
   0xd807aa98, 0x12835b01, 0x243185be, 0x550c7dc3, 0x72be5d74, 0x80deb1fe, 0x9bdc06a7, 0xc19bf174,
   0xe49b69c1, 0xefbe4786, 0x0fc19dc6, 0x240ca1cc, 0x2de92c6f, 0x4a7484aa, 0x5cb0a9dc, 0x76f988da,
   0x983e5152, 0xa831c66d, 0xb00327c8, 0xbf597fc7, 0xc6e00bf3, 0xd5a79147, 0x06ca6351, 0x14292967,
   0x27b70a85, 0x2e1b2138, 0x4d2c6dfc, 0x53380d13, 0x650a7354, 0x766a0abb, 0x81c2c92e, 0x92722c85,
   0xa2bfe8a1, 0xa81a664b, 0xc24b8b70, 0xc76c51a3, 0xd192e819, 0xd6990624, 0xf40e3585, 0x106aa070,
   0x19a4c116, 0x1e376c08, 0x2748774c, 0x34b0bcb5, 0x391c0cb3, 0x4ed8aa4a, 0x5b9cca4f, 0x682e6ff3,
   0x748f82ee, 0x78a5636f, 0x84c87814, 0x8cc70208, 0x90befffa, 0xa4506ceb, 0xbef9a3f7, 0xc67178f2]

/-- Truncation to a 32-bit word. -/
def w32 (x : Nat) : Nat := x % 4294967296

/-- Rotation of a 32-bit word to the right. -/
def rotr (x n : Nat) : Nat := w32 ((x >>> n) ||| (x <<< (32 - n)))

def bigSigma0 (x : Nat) : Nat := rotr x 2 ^^^ rotr x 13 ^^^ rotr x 22

def bigSigma1 (x : Nat) : Nat := rotr x 6 ^^^ rotr x 11 ^^^ rotr x 25

def smallSigma0 (x : Nat) : Nat := rotr x 7 ^^^ rotr x 18 ^^^ (x >>> 3)

def smallSigma1 (x : Nat) : Nat := rotr x 17 ^^^ rotr x 19 ^^^ (x >>> 10)

def ch (x y z : Nat) : Nat := (x &&& y) ^^^ ((x ^^^ 0xffffffff) &&& z)

def maj (x y z : Nat) : Nat := (x &&& y) ^^^ (x &&& z) ^^^ (y &&& z)

/-- Padding: a `0x80` byte, zero bytes up to 56 modulo 64, then the bit length on 8 bytes,
big endian. -/
def pad (msg : List Nat) : List Nat :=
  let l := msg.length
  let zeros := (119 - l % 64) % 64
  let bits := 8 * l
  msg ++ 0x80 :: List.replicate zeros 0 ++
    (List.range 8).map (fun i => (bits >>> (8 * (7 - i))) % 256)

/-- Big-endian word of four bytes. -/
def beWord : List Nat → Nat
  | [b0, b1, b2, b3] => ((b0 * 256 + b1) * 256 + b2) * 256 + b3
  | _ => 0

/-- The first `n` big-endian words of a byte string. -/
def words : Nat → List Nat → List Nat
  | 0, _ => []
  | n + 1, bs => beWord (bs.take 4) :: words n (bs.drop 4)

/-- Message schedule, newest word first: `rev` holds `W[t-1], W[t-2], ...`; `n` more words are
added. -/
def schedule : Nat → List Nat → List Nat
  | 0, rev => rev
  | n + 1, rev =>
    let w := w32 (smallSigma1 (rev.getD 1 0) + rev.getD 6 0
      + smallSigma0 (rev.getD 14 0) + rev.getD 15 0)
    schedule n (w :: rev)

/-- The eight working variables, also used for the chaining value. -/
structure Regs where
  a : Nat
  b : Nat
  c : Nat
  d : Nat
  e : Nat
  f : Nat
  g : Nat
  h : Nat

/-- One round of the compression function. -/
def round (r : Regs) (k w : Nat) : Regs :=
  let t1 := w32 (r.h + bigSigma1 r.e + ch r.e r.f r.g + k + w)
  let t2 := w32 (bigSigma0 r.a + maj r.a r.b r.c)
  { a := w32 (t1 + t2), b := r.a, c := r.b, d := r.c,
    e := w32 (r.d + t1), f := r.e, g := r.f, h := r.g }

def rounds : Regs → List Nat → List Nat → Regs
  | r, k :: ks, w :: ws => rounds (round r k w) ks ws
  | r, _, _ => r

/-- Compression of one 64-byte block into the chaining value. -/
def block (h : Regs) (bs : List Nat) : Regs :=
  let ws := (schedule 48 (words 16 bs).reverse).reverse
  let r := rounds h K ws
  { a := w32 (h.a + r.a), b := w32 (h.b + r.b), c := w32 (h.c + r.c), d := w32 (h.d + r.d),
    e := w32 (h.e + r.e), f := w32 (h.f + r.f), g := w32 (h.g + r.g), h := w32 (h.h + r.h) }

def blocks : Nat → Regs → List Nat → Regs
  | 0, h, _ => h
  | n + 1, h, bs => blocks n (block h (bs.take 64)) (bs.drop 64)

/-- The four bytes of a word, big endian. -/
def beBytes (x : Nat) : List Nat := [x >>> 24 % 256, x >>> 16 % 256, x >>> 8 % 256, x % 256]

/-- The 32-byte digest `sha256.Sum256(msg)`. -/
def Sum256 (msg : List Nat) : List Nat :=
  let p := pad msg
  let r := blocks (p.length / 64)
    ⟨0x6a09e667, 0xbb67ae85, 0x3c6ef372, 0xa54ff53a,
     0x510e527f, 0x9b05688c, 0x1f83d9ab, 0x5be0cd19⟩ p
  beBytes r.a ++ beBytes r.b ++ beBytes r.c ++ beBytes r.d
    ++ beBytes r.e ++ beBytes r.f ++ beBytes r.g ++ beBytes r.h

def hexDigit (n : Nat) : Char := "0123456789abcdef".data.getD n '0'

/-- The result of `fmt.Sprintf("%x", bs)` on a byte array: two lower-case hex digits a byte. -/
def hex (bs : List Nat) : String :=
  String.mk (bs.flatMap fun b => [hexDigit (b / 16), hexDigit (b % 16)])

/-- UTF-8 encoding of one character. -/
def utf8 (c : Char) : List Nat :=
  let n := c.toNat
  if n < 0x80 then [n]
  else if n < 0x800 then [0xC0 + n / 64, 0x80 + n % 64]
  else if n < 0x10000 then [0xE0 + n / 4096, 0x80 + n / 64 % 64, 0x80 + n % 64]
  else [0xF0 + n / 262144, 0x80 + n / 4096 % 64, 0x80 + n / 64 % 64, 0x80 + n % 64]

/-- The conversion `[]byte(s)`: the UTF-8 bytes of the string. -/
def bytes (s : String) : List Nat := s.data.flatMap utf8

end Sha256

/-! ## `hashed_metric_list.go` -/

namespace PrometheusCommon

/-- The type `prometheus.Labels`, a `map[string]string`, as its list of entries (keys distinct).
No function of the file writes to a label map, so label maps are kept as values. -/
abbrev Labels := List (String × String)

/-- The struct `MetricRow`.  `value` is a `float64` that only ever holds a count of `Inc`
calls, kept here as a natural number. -/
structure MetricRow where
  labels : Labels
  value : Nat
deriving DecidableEq, Repr, Inhabited

/-- An address in one of the stores. -/
abbrev Addr := Nat

/-- A `map[string]*MetricRow` object: hash key to address of the row cell. -/
abbrev RowMap := List (String × Addr)

/-- The dynamic type and value of an `interface{}` kept in the cache: a `[]MetricRow` or a
`map[string]*MetricRow`, each by the address of its object. -/
inductive CacheObject where
  | rowSlice (a : Addr)
  | rowMap (a : Addr)
deriving DecidableEq, Repr

/-- A cache entry (`cache.Item`): the stored object and its expiration as Unix nanoseconds,
`0` for an entry that never expires. -/
structure Item where
  Object : CacheObject
  Expiration : Int
deriving DecidableEq, Repr

/-- The type `cache.Cache` of `github.com/patrickmn/go-cache`: the default expiration and the
items by key.  The library is imported, not part of the repository; `Get`, `set` and `Add`
below follow the functions of these names in its `cache.go`. -/
structure Cache where
  defaultExpiration : Int
  items : List (String × Item)
deriving DecidableEq, Repr

/-- The call `c.Get(k)` at time `now`: the object stored under `k`, unless there is none or
it has expired. -/
def Cache.Get (c : Cache) (now : Int) (k : String) : Option CacheObject :=
  match c.items.lookup k with
  | none => none
  | some item =>
    if 0 < item.Expiration ∧ item.Expiration < now then none else some item.Object

/-- The unconditional store behind `Add`: a duration of `0` stands for the default expiration
of the cache, a positive duration expires at `now + d`, any other never expires. -/
def Cache.set (c : Cache) (now : Int) (k : String) (x : CacheObject) (d : Int) : Cache :=
  let d := if d = 0 then c.defaultExpiration else d
  let e := if 0 < d then now + d else 0
  { c with items := (k, ⟨x, e⟩) :: c.items.filter (fun p => p.1 != k) }

/-- The call `c.Add(k, x, d)` at time `now`.  The library documents it as: add an item to the
cache only if an item does not already exist for the given key, or if the existing item has
expired; return an error otherwise.  The flag is `true` when the object was stored. -/
def Cache.Add (c : Cache) (now : Int) (k : String) (x : CacheObject) (d : Int) : Cache × Bool :=
  match c.Get now k with
  | some _ => (c, false)
  | none => (c.set now k x d, true)

/-- The struct `HashedMetricList` (the mutex left out): `list` is the address of the map
object, `metricsCache` is `none` for a nil cache. -/
structure HashedMetricList where
  list : Addr
  metricsCache : Option Cache
deriving DecidableEq, Repr

/-- The program state: the three stores and the aggregator. -/
structure State where
  /-- The `*MetricRow` cells. -/
  rows : List MetricRow
  /-- The `map[string]*MetricRow` objects. -/
  maps : List RowMap
  /-- The `[]MetricRow` backing arrays. -/
  slices : List (List MetricRow)
  m : HashedMetricList
deriving DecidableEq, Repr

/-- The map object `m.list` points to. -/
def State.table (s : State) : RowMap := s.maps.getD s.m.list []

/-- The cell `*p`. -/
def State.deref (s : State) (p : Addr) : MetricRow := s.rows.getD p default

/-- `Reset`: `m.list = map[string]*MetricRow{}`, a newly allocated empty map. -/
def Reset (s : State) : State :=
  { s with maps := s.maps ++ [[]], m := { s.m with list := s.maps.length } }

/-- `SetCache`. -/
def SetCache (s : State) (instance_ : Option Cache) : State :=
  { s with m := { s.m with metricsCache := instance_ } }

/-- `NewHashedMetricsList`, allocating in the given stores: the zero struct, then `Init`,
which is `Reset`. -/
def NewHashedMetricsList (rows : List MetricRow) (maps : List RowMap)
    (slices : List (List MetricRow)) : State :=
  Reset { rows := rows, maps := maps, slices := slices, m := { list := 0, metricsCache := none } }

/-- The loop of `GetList`: `list = append(list, *row)` for every entry of the map (entries are
visited in the order in which the table holds them). -/
def State.copyRows (s : State) : List MetricRow :=
  s.table.foldl (fun list e => list ++ [s.deref e.2]) []

/-- `GetList`: the copied rows are a newly allocated slice; its address is returned along with
the new state. -/
def GetList (s : State) : State × Addr :=
  ({ s with slices := s.slices ++ [s.copyRows] }, s.slices.length)

/-- The string `metricKey` built by the loop of `Inc`, for the order in which `range labels`
yields the entries. -/
def metricKey (order : List (String × String)) : String :=
  order.foldl (fun metricKey kv => metricKey ++ kv.1 ++ "=" ++ kv.2 ++ ";") ""

/-- The value `hashKey` of `Inc`: `fmt.Sprintf("%x", sha256.Sum256([]byte(metricKey)))`. -/
def hashKey (metricKey : String) : String :=
  Sha256.hex (Sha256.Sum256 (Sha256.bytes metricKey))

/-- `Inc(labels)`, where `order` is the order in which `range labels` yields the entries of
`labels`. -/
def Inc (s : State) (labels : Labels) (order : List (String × String)) : State :=
  let hashKey := hashKey (metricKey order)
  match s.table.lookup hashKey with
  | some p =>
    let row := s.deref p
    { s with rows := s.rows.set p { row with value := row.value + 1 } }
  | none =>
    { s with
      rows := s.rows ++ [{ labels := labels, value := 1 }]
      maps := s.maps.set s.m.list ((hashKey, s.rows.length) :: s.table) }

/-- How a call of `LoadFromCache` ends. -/
inductive LoadResult where
  | returned (fetched : Bool)
  | panicked
deriving DecidableEq, Repr

/-- `LoadFromCache(key)` at time `now`.  The type assertion `val.(map[string]*MetricRow)` has
no `ok` result, so it panics on a value of any other dynamic type. -/
def LoadFromCache (s : State) (now : Int) (key : String) : State × LoadResult :=
  let s := Reset s
  match s.m.metricsCache with
  | some c =>
    match c.Get now key with
    | some (CacheObject.rowMap a) => ({ s with m := { s.m with list := a } }, .returned true)
    | some (CacheObject.rowSlice _) => (s, .panicked)
    | none => (s, .returned false)
  | none => (s, .returned false)

/-- `StoreToCache(key, duration)` at time `now`; the error of `Add` is dropped. -/
def StoreToCache (s : State) (now : Int) (key : String) (duration : Int) : State :=
  match s.m.metricsCache with
  | some c =>
    let r := GetList s
    { r.1 with m := { r.1.m with
        metricsCache := some (c.Add now key (CacheObject.rowSlice r.2) duration).1 } }
  | none => s

/-- A call on the aggregator. -/
inductive Call where
  | inc (labels : Labels) (order : List (String × String))
  | reset
  | loadFromCache (now : Int) (key : String)
  | storeToCache (now : Int) (key : String) (duration : Int)
  | getList
deriving Repr

/-- The state after a call (also after a call that panics). -/
def Call.run (s : State) : Call → State
  | .inc labels order => Inc s labels order
  | .reset => Reset s
  | .loadFromCache now key => (LoadFromCache s now key).1
  | .storeToCache now key duration => StoreToCache s now key duration
  | .getList => (GetList s).1

/-- The state after a sequence of calls. -/
def runCalls (s : State) (calls : List Call) : State := calls.foldl Call.run s

/-- The characters one entry contributes to `metricKey`. -/
def entryChars (kv : String × String) : List Char := kv.1.data ++ '=' :: (kv.2.data ++ [';'])

/-- The label set `{a: "1", b: "2"}`, in the order `a`, `b`. -/
def labelsAB : Labels := [("a", "1"), ("b", "2")]

/-- The entries of `labelsAB` in the order `b`, `a`. -/
def orderBA : List (String × String) := [("b", "2"), ("a", "1")]

/-- The label set `{a: "1;b=2", b: "3"}`. -/
def labelsSemi1 : Labels := [("a", "1;b=2"), ("b", "3")]

/-- The label set `{a: "1", b: "2;b=3"}`. -/
def labelsSemi2 : Labels := [("a", "1"), ("b", "2;b=3")]

/-- A new aggregator in empty stores. -/
def newList : State := NewHashedMetricsList [] [] []

/-- A new aggregator with an empty cache set (no default expiration). -/
def newListWithCache : State :=
  SetCache newList (some { defaultExpiration := 0, items := [] })

/-- The aggregator with a cache after one `Inc` of `labelsAB`. -/
def countedOnce : State := Inc newListWithCache labelsAB labelsAB

/-- A store of the empty aggregator under `"k"` at time `100` for one minute, then one `Inc`
of `labelsAB`. -/
def storedThenCounted : State :=
  Inc (StoreToCache newListWithCache 100 "k" 60000000000) labelsAB labelsAB

/-- An aggregator holding one row whose cache has an entry for `"k"` that expired at time
`50`. -/
def withExpiredEntry : State :=
  SetCache (Inc newList labelsAB labelsAB)
    (some { defaultExpiration := 0, items := [("k", ⟨CacheObject.rowMap 0, 50⟩)] })

end PrometheusCommon

/-! ## `main.go` -/

namespace Main

/-- The type `time.Duration`: a number of nanoseconds. -/
abbrev Duration := Int

/-- The method `Duration.Seconds`: `float64(d / Second) + float64(d % Second) / 1e9`, with the
truncating division of Go.  The floating-point value is taken as the exact rational; the two
have the same sign, and only the sign is looked at. -/
def Seconds (d : Duration) : ℚ :=
  (Int.tdiv d 1000000000 : ℚ) + (Int.tmod d 1000000000 : ℚ) / 1000000000

/-- The scrape-time settings of the struct `opts`, and the agent-pool filter.  The settings of
type `*time.Duration` are `none` for a nil pointer. -/
structure Opts where
  ScrapeTime : Duration
  ScrapeTimeGeneral : Option Duration
  ScrapeTimeBuild : Option Duration
  ScrapeTimeRelease : Option Duration
  ScrapeTimePullRequest : Option Duration
  ScrapeTimeLatestBuild : Option Duration
  ScrapeTimeAgentPool : Option Duration
  AzureDevopsFilterAgentPoolId : List Int
deriving DecidableEq, Repr

/-- The part of `initArgparser` after a successful `argparser.Parse()`; the argument is `opts`
as the parser filled it.  Each `opts.X = &opts.ScrapeTime` makes `X` read as `ScrapeTime`. -/
def initArgparser (opts : Opts) : Opts :=
  let opts := if opts.ScrapeTimeGeneral.isNone
    then { opts with ScrapeTimeGeneral := some opts.ScrapeTime } else opts
  let opts := if opts.ScrapeTimePullRequest.isNone
    then { opts with ScrapeTimePullRequest := some opts.ScrapeTime } else opts
  let opts := if opts.ScrapeTimeBuild.isNone
    then { opts with ScrapeTimeBuild := some opts.ScrapeTime } else opts
  let opts := if opts.ScrapeTimeRelease.isNone
    then { opts with ScrapeTimeRelease := some opts.ScrapeTime } else opts
  let opts := if opts.ScrapeTimeAgentPool.isNone
    then { opts with ScrapeTimeAgentPool := some opts.ScrapeTime } else opts
  let opts := if opts.ScrapeTimeLatestBuild.isNone
    then { opts with ScrapeTimeLatestBuild := some opts.ScrapeTime } else opts
  opts

/-- A collector as `initMetricCollector` leaves it: the metrics collector it wraps, the fields
set on it, and the scrape time handed to `Run`.  The collector types are declared in other
files of the package; of `Run` only the call and its argument are recorded. -/
structure Collector where
  collector : String
  AzureDevOpsProjects : List String
  AgentPoolIdList : List Int
  scrapeTime : Duration
deriving DecidableEq, Repr

/-- The three collector maps, keyed by collector name, and the lines written to `Logger`. -/
structure Collectors where
  collectorGeneralList : List (String × Collector)
  collectorProjectList : List (String × Collector)
  collectorAgentPoolList : List (String × Collector)
  log : List String
deriving DecidableEq, Repr

/-- The map a collector is put in. -/
inductive CollectorList where
  | general
  | project
  | agentPool
deriving DecidableEq, Repr

/-- The assignment `list[name] = c` on one of the three maps. -/
def Collectors.put (cs : Collectors) (l : CollectorList) (name : String) (c : Collector) :
    Collectors :=
  let upd := fun (m : List (String × Collector)) => (name, c) :: m.filter (fun p => p.1 != name)
  match l with
  | .general => { cs with collectorGeneralList := upd cs.collectorGeneralList }
  | .project => { cs with collectorProjectList := upd cs.collectorProjectList }
  | .agentPool => { cs with collectorAgentPoolList := upd cs.collectorAgentPoolList }

/-- The collector registered under a name, in any of the three maps. -/
def Collectors.find (cs : Collectors) (name : String) : Option Collector :=
  (cs.collectorGeneralList ++ cs.collectorProjectList ++ cs.collectorAgentPoolList).lookup name

/-- A collector is started when it has been registered (and `Run`). -/
def Collectors.started (cs : Collectors) (name : String) : Bool := (cs.find name).isSome

/-- Reading through a `*time.Duration`; a nil pointer panics. -/
def deref (p : Option Duration) : Except String Duration :=
  match p with
  | some d => .ok d
  | none => .error "invalid memory address or nil pointer dereference"

/-- One `if ... { ... Run(...) } else { Logger.Messsage(...) }` block of `initMetricCollector`:
`gate` is the setting whose `Seconds()` is tested, `scrapeTime` the one handed to `Run`. -/
def initCollector (cs : Collectors) (gate : Option Duration) (list : CollectorList)
    (collectorName collector : String) (projectList : List String) (poolIds : List Int)
    (scrapeTime : Option Duration) : Except String Collectors := do
  let g ← deref gate
  if 0 < Seconds g then
    let d ← deref scrapeTime
    pure (cs.put list collectorName
      { collector := collector, AzureDevOpsProjects := projectList,
        AgentPoolIdList := poolIds, scrapeTime := d })
  else
    pure { cs with log := cs.log ++ ["collector[" ++ collectorName ++ "]: disabled"] }

/-- The function `initMetricCollector`.  `listProjects` is the result of
`AzureDevopsClient.ListProjects()`; `Except.error` is a panic with the given value. -/
def initMetricCollector (opts : Opts) (listProjects : Except String (List String)) :
    Except String Collectors := do
  let cs : Collectors := ⟨[], [], [], []⟩
  let projectList ← listProjects
  let cs ← initCollector cs opts.ScrapeTimeGeneral .general "General"
    "MetricsCollectorGeneral" projectList [] opts.ScrapeTimeGeneral
  let cs ← initCollector cs opts.ScrapeTimeGeneral .project "Project"
    "MetricsCollectorProject" projectList [] opts.ScrapeTimeGeneral
  let cs ← initCollector cs opts.ScrapeTimeGeneral .project "PullRequest"
    "MetricsCollectorPullRequest" projectList [] opts.ScrapeTimePullRequest
  let cs ← initCollector cs opts.ScrapeTimeGeneral .project "LatestBuild"
    "MetricsCollectorLatestBuild" projectList [] opts.ScrapeTimeLatestBuild
  let cs ← initCollector cs opts.ScrapeTimeGeneral .project "Build"
    "MetricsCollectorBuild" projectList [] opts.ScrapeTimeBuild
  let cs ← initCollector cs opts.ScrapeTimeGeneral .project "Release"
    "MetricsCollectorRelease" projectList [] opts.ScrapeTimeRelease
  let cs ← initCollector cs opts.ScrapeTimeGeneral .agentPool "AgentPool"
    "MetricsCollectorAgentPool" projectList opts.AzureDevopsFilterAgentPoolId
    opts.ScrapeTimeAgentPool
  pure cs

/-- The setting that belongs to a collector: `Project` has none of its own and uses the
general one. -/
def ownScrapeTime (opts : Opts) (collectorName : String) : Option Duration :=
  if collectorName = "General" then opts.ScrapeTimeGeneral
  else if collectorName = "Project" then opts.ScrapeTimeGeneral
  else if collectorName = "PullRequest" then opts.ScrapeTimePullRequest
  else if collectorName = "LatestBuild" then opts.ScrapeTimeLatestBuild
  else if collectorName = "Build" then opts.ScrapeTimeBuild
  else if collectorName = "Release" then opts.ScrapeTimeRelease
  else if collectorName = "AgentPool" then opts.ScrapeTimeAgentPool
  else none

/-- The names of the seven collectors. -/
def collectorNames : List String :=
  ["General", "Project", "PullRequest", "LatestBuild", "Build", "Release", "AgentPool"]

/-- Settings as parsed from `--scrape-time-pullrequest=0s`: the tag defaults (`15m`, `15s`,
`30s`, `30s`) elsewhere, no value for the build and release settings. -/
def optsPullRequestOff : Opts :=
  { ScrapeTime := 900000000000
    ScrapeTimeGeneral := some 15000000000
    ScrapeTimeBuild := none
    ScrapeTimeRelease := none
    ScrapeTimePullRequest := some 0
    ScrapeTimeLatestBuild := some 30000000000
    ScrapeTimeAgentPool := some 30000000000
    AzureDevopsFilterAgentPoolId := [] }

/-- Settings as parsed from `--scrape-time-general=0s --scrape-time-build=5m`. -/
def optsGeneralOff : Opts :=
  { ScrapeTime := 900000000000
    ScrapeTimeGeneral := some 0
    ScrapeTimeBuild := some 300000000000
    ScrapeTimeRelease := none
    ScrapeTimePullRequest := none
    ScrapeTimeLatestBuild := some 30000000000
    ScrapeTimeAgentPool := some 30000000000
    AzureDevopsFilterAgentPoolId := [] }

/-- Settings as parsed from `--scrape-time-build=0s`. -/
def optsBuildOff : Opts :=
  { ScrapeTime := 900000000000
    ScrapeTimeGeneral := some 15000000000
    ScrapeTimeBuild := some 0
    ScrapeTimeRelease := none
    ScrapeTimePullRequest := none
    ScrapeTimeLatestBuild := some 30000000000
    ScrapeTimeAgentPool := some 30000000000
    AzureDevopsFilterAgentPoolId := [] }

end Main

/-! ## Properties of `hashed_metric_list.go` -/

namespace PrometheusCommon

/-- The loop of `GetList` copies the cell of every entry, in order. -/
theorem copyRows_eq_map (s : State) : s.copyRows = s.table.map (fun e => s.deref e.2) := by
  unfold State.copyRows
  generalize s.table = t
  suffices h : ∀ acc : List MetricRow,
      t.foldl (fun list e => list ++ [s.deref e.2]) acc = acc ++ t.map (fun e => s.deref e.2) by
    simpa using h []
  induction t with
  | nil => intro acc; simp
  | cons e t ih => intro acc; simp [ih]

/-- The table is empty after `Reset`. -/
theorem table_Reset (s : State) : (Reset s).table = [] := by
  simp [Reset, State.table]

/-- No rows are copied out after `Reset`. -/
theorem copyRows_Reset (s : State) : (Reset s).copyRows = [] := by
  rw [copyRows_eq_map, table_Reset]; rfl

/-- No call writes to a slice that exists already: the slice store only grows. -/
theorem slices_prefix_run (s : State) (c : Call) : s.slices <+: (c.run s).slices := by
  cases c with
  | inc labels order =>
    simp only [Call.run, Inc]
    split <;> exact List.prefix_refl _
  | reset => exact List.prefix_refl _
  | loadFromCache now key =>
    simp only [Call.run, LoadFromCache]
    split
    · split <;> exact List.prefix_refl _
    · exact List.prefix_refl _
  | storeToCache now key duration =>
    simp only [Call.run, StoreToCache]
    split
    · exact List.prefix_append _ _
    · exact List.prefix_refl _
  | getList => exact List.prefix_append _ _

/-- The slice store only grows along a sequence of calls. -/
theorem slices_prefix_runCalls (calls : List Call) (s : State) :
    s.slices <+: (runCalls s calls).slices := by
  induction calls generalizing s with
  | nil => exact List.prefix_refl _
  | cons c calls ih =>
    exact List.IsPrefix.trans (slices_prefix_run s c) (ih (c.run s))

/-- C6.  The slice returned by `GetList` holds the rows as they were at the call, and after any
later sequence of `Inc`, `Reset`, `LoadFromCache`, `StoreToCache` and `GetList` calls on the
aggregator the slice at the returned address still holds exactly those rows. -/
theorem GetList_snapshot_isolated (s : State) (calls : List Call) :
    (GetList s).1.slices[(GetList s).2]? = some s.copyRows ∧
    (runCalls (GetList s).1 calls).slices[(GetList s).2]? = some s.copyRows := by
  have h0 : (GetList s).1.slices[(GetList s).2]? = some s.copyRows := by
    simp [GetList]
  refine ⟨h0, ?_⟩
  obtain ⟨extra, he⟩ := slices_prefix_runCalls calls (GetList s).1
  rw [← he]
  have hlt : (GetList s).2 < (GetList s).1.slices.length := by simp [GetList]
  rw [List.getElem?_append_left hlt]
  exact h0

/-- C9.  With no cache configured, or with a cache in which `Get` finds no live entry for the
key, `LoadFromCache` returns `false` without panicking and leaves the aggregator empty: a
`GetList` that follows returns a slice without rows. -/
theorem LoadFromCache_miss (s : State) (now : Int) (key : String)
    (h : s.m.metricsCache = none ∨ ∃ c, s.m.metricsCache = some c ∧ c.Get now key = none) :
    (LoadFromCache s now key).2 = LoadResult.returned false ∧
    (LoadFromCache s now key).1.copyRows = [] ∧
    (GetList (LoadFromCache s now key).1).1.slices[(GetList (LoadFromCache s now key).1).2]?
      = some [] := by
  have hst : LoadFromCache s now key = (Reset s, LoadResult.returned false) := by
    rcases h with h | ⟨c, hc, hg⟩
    · simp [LoadFromCache, Reset, h]
    · simp [LoadFromCache, Reset, hc, hg]
  rw [hst]
  refine ⟨rfl, copyRows_Reset s, ?_⟩
  simp [GetList, copyRows_Reset]


/-- The first `Inc` on a new aggregator allocates one row and one map entry. -/
theorem Inc_new (rows : List MetricRow) (maps : List RowMap) (slices : List (List MetricRow))
    (l : Labels) (o : List (String × String)) :
    Inc (NewHashedMetricsList rows maps slices) l o =
      { rows := rows ++ [{ labels := l, value := 1 }]
        maps := maps ++ [[(hashKey (metricKey o), rows.length)]]
        slices := slices
        m := { list := maps.length, metricsCache := none } } := by
  simp [Inc, NewHashedMetricsList, Reset, State.table, List.lookup]

/-- Two `Inc` calls on a new aggregator that compute the same hash key leave one row, with the
labels of the first call and value `2`. -/
theorem Inc_Inc_same_key (rows : List MetricRow) (maps : List RowMap)
    (slices : List (List MetricRow)) (l1 l2 : Labels) (o1 o2 : List (String × String))
    (h : hashKey (metricKey o2) = hashKey (metricKey o1)) :
    (Inc (Inc (NewHashedMetricsList rows maps slices) l1 o1) l2 o2).copyRows
      = [{ labels := l1, value := 2 }] := by
  rw [Inc_new, copyRows_eq_map]
  simp [Inc, State.table, State.deref, List.lookup, h]

/-- Two `Inc` calls on a new aggregator that compute different hash keys leave two rows, each
with value `1`. -/
theorem Inc_Inc_other_key (rows : List MetricRow) (maps : List RowMap)
    (slices : List (List MetricRow)) (l1 l2 : Labels) (o1 o2 : List (String × String))
    (h : hashKey (metricKey o2) ≠ hashKey (metricKey o1)) :
    (Inc (Inc (NewHashedMetricsList rows maps slices) l1 o1) l2 o2).copyRows
      = [{ labels := l2, value := 1 }, { labels := l1, value := 1 }] := by
  rw [Inc_new, copyRows_eq_map]
  have hb : (hashKey (metricKey o2) == hashKey (metricKey o1)) = false := by simpa using h
  simp [Inc, State.table, State.deref, List.lookup, hb]
  constructor
  · rw [List.getElem_append_right (by simp)]; simp
  · rw [List.getElem_append_right (by simp)]; simp


/-- The loop of `Inc` appends the characters of every entry to what it has built. -/
theorem metricKey_foldl_data (o : List (String × String)) (acc : String) :
    (o.foldl (fun metricKey kv => metricKey ++ kv.1 ++ "=" ++ kv.2 ++ ";") acc).data
      = acc.data ++ o.flatMap entryChars := by
  induction o generalizing acc with
  | nil => simp
  | cons kv o ih =>
    rw [List.foldl_cons, ih]
    simp [entryChars, String.data_append]

/-- The characters of `metricKey`. -/
theorem metricKey_data (o : List (String × String)) :
    (metricKey o).data = o.flatMap entryChars := by
  unfold metricKey
  rw [metricKey_foldl_data]
  simp

/-- A list is cut at the first occurrence of a character in one way only. -/
theorem cut_unique (c : Char) (a a' b b' : List Char) (ha : c ∉ a) (ha' : c ∉ a')
    (h : a ++ c :: b = a' ++ c :: b') : a = a' ∧ b = b' := by
  induction a generalizing a' with
  | nil =>
    cases a' with
    | nil => simpa using h
    | cons x a' =>
      simp only [List.nil_append, List.cons_append, List.cons.injEq] at h
      exact absurd (h.1 ▸ List.mem_cons_self _ _) ha'
  | cons x a ih =>
    cases a' with
    | nil =>
      simp only [List.nil_append, List.cons_append, List.cons.injEq] at h
      exact absurd (h.1 ▸ List.mem_cons_self _ _) ha
    | cons y a' =>
      simp only [List.cons_append, List.cons.injEq] at h
      have hr := ih a' (fun hm => ha (List.mem_cons_of_mem _ hm))
        (fun hm => ha' (List.mem_cons_of_mem _ hm)) h.2
      exact ⟨by rw [h.1, hr.1], hr.2⟩

/-- On entries whose keys hold no `=` and whose values hold no `;`, the enumeration can be read
back from the characters of `metricKey`. -/
theorem flatMap_entryChars_injective (o1 o2 : List (String × String))
    (h1 : ∀ kv ∈ o1, '=' ∉ kv.1.data ∧ ';' ∉ kv.2.data)
    (h2 : ∀ kv ∈ o2, '=' ∉ kv.1.data ∧ ';' ∉ kv.2.data)
    (h : o1.flatMap entryChars = o2.flatMap entryChars) : o1 = o2 := by
  induction o1 generalizing o2 with
  | nil =>
    cases o2 with
    | nil => rfl
    | cons kv o2 =>
      have hm : '=' ∈ (kv :: o2).flatMap entryChars := by simp [entryChars]
      rw [← h] at hm
      simp at hm
  | cons kv o1 ih =>
    cases o2 with
    | nil =>
      have hm : '=' ∈ (kv :: o1).flatMap entryChars := by simp [entryChars]
      rw [h] at hm
      simp at hm
    | cons kv' o2 =>
      obtain ⟨k, v⟩ := kv
      obtain ⟨k', v'⟩ := kv'
      have hk := h1 (k, v) (List.mem_cons_self _ _)
      have hk' := h2 (k', v') (List.mem_cons_self _ _)
      simp only [List.flatMap_cons, entryChars, List.append_assoc, List.cons_append,
        List.nil_append] at h
      obtain ⟨e1, h⟩ := cut_unique '=' _ _ _ _ hk.1 hk'.1 h
      obtain ⟨e2, h⟩ := cut_unique ';' _ _ _ _ hk.2 hk'.2 h
      have e3 := ih o2 (fun kv hm => h1 kv (List.mem_cons_of_mem _ hm))
        (fun kv hm => h2 kv (List.mem_cons_of_mem _ hm))
        (by simpa [entryChars] using h)
      have ek : k = k' := String.ext e1
      have ev : v = v' := String.ext e2
      rw [ek, ev, e3]

/-- C10, amended.  For two label sets that differ, whose keys hold no `=` and whose values hold
no `;`, the strings `metricKey` built from them differ for every pair of enumeration orders;
and when the hash keys of the two strings differ, two `Inc` calls with them on a new aggregator
leave two rows, one for each label set, each with value `1`. -/
theorem metricKey_injective_without_delimiters (l1 l2 : Labels)
    (o1 o2 : List (String × String)) (p1 : o1.Perm l1) (p2 : o2.Perm l2)
    (h1 : ∀ kv ∈ l1, '=' ∉ kv.1.data ∧ ';' ∉ kv.2.data)
    (h2 : ∀ kv ∈ l2, '=' ∉ kv.1.data ∧ ';' ∉ kv.2.data)
    (hne : ¬ l1.Perm l2) :
    metricKey o1 ≠ metricKey o2 ∧
    (hashKey (metricKey o2) ≠ hashKey (metricKey o1) →
      (Inc (Inc (NewHashedMetricsList [] [] []) l1 o1) l2 o2).copyRows.Perm
        [{ labels := l1, value := 1 }, { labels := l2, value := 1 }]) := by
  refine ⟨?_, fun hk => ?_⟩
  · show metricKey o1 ≠ metricKey o2
    intro h
    have hd : o1.flatMap entryChars = o2.flatMap entryChars := by
      rw [← metricKey_data, ← metricKey_data, h]
    have ho : o1 = o2 := flatMap_entryChars_injective o1 o2
      (fun kv hm => h1 kv (p1.mem_iff.mp hm)) (fun kv hm => h2 kv (p2.mem_iff.mp hm)) hd
    exact hne (p1.symm.trans (ho ▸ p2))
  · rw [Inc_Inc_other_key [] [] [] l1 l2 o1 o2 hk]
    exact List.Perm.swap _ _ _

/-- C1, the code at the failing input.  On a new aggregator, `Inc` of the label set
`{a: "1", b: "2"}` enumerated as `a`, `b`, then `Inc` of the same label set enumerated as `b`,
`a`, leaves two rows in the list `GetList` returns, each with those labels and value `1`. -/
theorem Inc_twice_other_order_two_rows :
    orderBA.Perm labelsAB ∧
    (GetList (Inc (Inc newList labelsAB labelsAB) labelsAB orderBA)).1.slices[
        (GetList (Inc (Inc newList labelsAB labelsAB) labelsAB orderBA)).2]?
      = some [{ labels := labelsAB, value := 1 }, { labels := labelsAB, value := 1 }] := by
  decide!

/-- C2, the code at the failing input.  The two enumeration orders of `{a: "1", b: "2"}` give
the strings `a=1;b=2;` and `b=2;a=1;`, and two different hash keys. -/
theorem metricKey_depends_on_order :
    orderBA.Perm labelsAB ∧
    metricKey labelsAB = "a=1;b=2;" ∧
    metricKey orderBA = "b=2;a=1;" ∧
    hashKey (metricKey labelsAB)
      = "0eae6b9953f7b7b282d0286ebef3d9944ef4f96b3dacbf22f1b1c615ac5d4b2e" ∧
    hashKey (metricKey orderBA)
      = "fa1da32c9aeae74952e6b16c18440b34b02c43efc790eacf229d8d9f6194a4b7" := by
  decide!

/-- C10, counterexample.  The label sets `{a: "1;b=2", b: "3"}` and `{a: "1", b: "2;b=3"}`
differ, yet enumerated as `a`, `b` both give the string `a=1;b=2;b=3;`; two `Inc` calls with
them on a new aggregator leave a single row, with the labels of the first and value `2`. -/
theorem metricKey_not_injective :
    ¬ labelsSemi1.Perm labelsSemi2 ∧
    metricKey labelsSemi1 = "a=1;b=2;b=3;" ∧
    metricKey labelsSemi2 = "a=1;b=2;b=3;" ∧
    (GetList (Inc (Inc newList labelsSemi1 labelsSemi1) labelsSemi2 labelsSemi2)).1.slices[
        (GetList (Inc (Inc newList labelsSemi1 labelsSemi1) labelsSemi2 labelsSemi2)).2]?
      = some [{ labels := labelsSemi1, value := 2 }] := by
  decide!

/-- Witness of `metricKey_injective_without_delimiters`: the label sets `{a: "1"}` and
`{a: "2"}`. -/
theorem metricKey_injective_without_delimiters_witness :
    metricKey [("a", "1")] ≠ metricKey [("a", "2")] ∧
    (hashKey (metricKey [("a", "2")]) ≠ hashKey (metricKey [("a", "1")]) →
      (Inc (Inc (NewHashedMetricsList [] [] []) [("a", "1")] [("a", "1")])
          [("a", "2")] [("a", "2")]).copyRows.Perm
        [{ labels := [("a", "1")], value := 1 }, { labels := [("a", "2")], value := 1 }]) :=
  metricKey_injective_without_delimiters [("a", "1")] [("a", "2")] [("a", "1")] [("a", "2")]
    (List.Perm.refl _) (List.Perm.refl _) (by decide) (by decide) (by decide)

/-- Witness of `LoadFromCache_miss`: the cache holds an entry for the key that has expired. -/
theorem LoadFromCache_miss_witness :
    (LoadFromCache withExpiredEntry 100 "k").2 = LoadResult.returned false ∧
    (LoadFromCache withExpiredEntry 100 "k").1.copyRows = [] ∧
    (GetList (LoadFromCache withExpiredEntry 100 "k").1).1.slices[
        (GetList (LoadFromCache withExpiredEntry 100 "k").1).2]? = some [] :=
  LoadFromCache_miss withExpiredEntry 100 "k"
    (Or.inr ⟨{ defaultExpiration := 0, items := [("k", ⟨CacheObject.rowMap 0, 50⟩)] },
      rfl, by decide⟩)

/-- The entry `Add` stores is found by `Get` until it expires. -/
theorem Get_set (c : Cache) (now now' : Int) (k : String) (x : CacheObject) (d : Int)
    (h : now' ≤ now ∨ (0 < d ∧ now' ≤ now + d)) : (c.set now k x d).Get now' k = some x := by
  unfold Cache.set Cache.Get
  simp only [List.lookup, beq_self_eq_true]
  rw [if_neg]
  rintro ⟨h1, h2⟩
  rcases h with h | ⟨hd, h⟩ <;> split_ifs at h1 h2 <;> omega

/-- C4, the code on every aggregator whose cache has no live entry for the key.  After
`StoreToCache(key, ttl)` with a positive `ttl`, a `LoadFromCache(key)` before the entry expires
panics: the cache holds a `[]MetricRow`, and the load asserts a `map[string]*MetricRow`. -/
theorem StoreToCache_LoadFromCache_panics (s : State) (c : Cache) (now now' : Int)
    (key : String) (ttl : Int) (hc : s.m.metricsCache = some c) (hmiss : c.Get now key = none)
    (httl : 0 < ttl) (hnow : now' ≤ now + ttl) :
    (LoadFromCache (StoreToCache s now key ttl) now' key).2 = LoadResult.panicked := by
  have hg := Get_set c now now' key (CacheObject.rowSlice s.slices.length) ttl
    (Or.inr ⟨httl, hnow⟩)
  simp [LoadFromCache, StoreToCache, hc, Cache.Add, hmiss, Reset, GetList, hg]

/-- Witness of `StoreToCache_LoadFromCache_panics`: one `Inc`, a store under `"k"` for one
second, and a load at the same instant. -/
theorem StoreToCache_LoadFromCache_panics_witness :
    (LoadFromCache (StoreToCache countedOnce 100 "k" 1000000000) 100 "k").2
      = LoadResult.panicked :=
  StoreToCache_LoadFromCache_panics countedOnce { defaultExpiration := 0, items := [] }
    100 100 "k" 1000000000 rfl rfl (by decide) (by decide)

/-- C8, counterexample.  The empty aggregator is stored under `"k"` for one minute, one row is
counted, and the aggregator is stored under `"k"` again while the first entry is live.  The
cache entry under `"k"` is still the slice of the first store, which has no rows, and not the
current snapshot, which has one. -/
theorem StoreToCache_keeps_live_entry :
    (StoreToCache storedThenCounted 200 "k" 60000000000).m.metricsCache.bind
        (fun c => c.Get 200 "k") = some (CacheObject.rowSlice 0) ∧
    (StoreToCache storedThenCounted 200 "k" 60000000000).slices[0]? = some [] ∧
    storedThenCounted.copyRows = [{ labels := labelsAB, value := 1 }] := by
  decide!

/-- C8, amended.  With a cache configured: when `Get` finds no live entry for the key,
`StoreToCache` leaves under the key the slice that holds the current rows of the aggregator;
when `Get` finds a live entry, `StoreToCache` leaves the cache as it is. -/
theorem StoreToCache_stores_unless_live (s : State) (c : Cache) (now : Int) (key : String)
    (ttl : Int) (hc : s.m.metricsCache = some c) :
    (c.Get now key = none →
      ∃ c', (StoreToCache s now key ttl).m.metricsCache = some c' ∧
        c'.Get now key = some (CacheObject.rowSlice s.slices.length) ∧
        (StoreToCache s now key ttl).slices[s.slices.length]? = some s.copyRows) ∧
    (∀ x, c.Get now key = some x →
      (StoreToCache s now key ttl).m.metricsCache = some c) := by
  constructor
  · intro hmiss
    refine ⟨c.set now key (CacheObject.rowSlice s.slices.length) ttl, ?_, ?_, ?_⟩
    · simp [StoreToCache, hc, Cache.Add, hmiss, GetList]
    · exact Get_set c now now key _ ttl (Or.inl le_rfl)
    · simp [StoreToCache, hc, GetList]
  · intro x hx
    simp [StoreToCache, hc, Cache.Add, hx, GetList]

/-- Witness of `StoreToCache_stores_unless_live`: the aggregator with one row and an empty
cache. -/
theorem StoreToCache_stores_unless_live_witness :
    ({ defaultExpiration := 0, items := [] } : Cache).Get 100 "k" = none ∧
    ∃ c', (StoreToCache countedOnce 100 "k" 1000000000).m.metricsCache = some c' ∧
      c'.Get 100 "k" = some (CacheObject.rowSlice countedOnce.slices.length) ∧
      (StoreToCache countedOnce 100 "k" 1000000000).slices[countedOnce.slices.length]?
        = some countedOnce.copyRows :=
  ⟨rfl, (StoreToCache_stores_unless_live countedOnce { defaultExpiration := 0, items := [] }
    100 "k" 1000000000 rfl).1 rfl⟩

end PrometheusCommon

/-! ## Properties of `main.go` -/

namespace Main

/-- The value of `Seconds` is the duration over `10^9`. -/
theorem Seconds_eq (d : Duration) : Seconds d = (d : ℚ) / 1000000000 := by
  unfold Seconds
  have h := Int.tdiv_add_tmod d 1000000000
  have h2 : ((1000000000 * Int.tdiv d 1000000000 + Int.tmod d 1000000000 : Int) : ℚ)
      = (d : ℚ) := by
    rw [h]
  push_cast at h2
  rw [← h2]
  ring

/-- The test `d.Seconds() > 0` is the test `d > 0`. -/
theorem Seconds_pos_iff (d : Duration) : 0 < Seconds d ↔ 0 < d := by
  rw [Seconds_eq]
  constructor
  · intro h
    have : (0 : ℚ) < (d : ℚ) := by
      by_contra hn
      push_neg at hn
      have : (d : ℚ) / 1000000000 ≤ 0 := div_nonpos_of_nonpos_of_nonneg hn (by norm_num)
      linarith
    exact_mod_cast this
  · intro h
    have : (0 : ℚ) < (d : ℚ) := by exact_mod_cast h
    positivity

/-- One block of `initMetricCollector` returns when both settings are set. -/
theorem initCollector_ok (cs : Collectors) (g d : Duration) (list : CollectorList)
    (collectorName collector : String) (projectList : List String) (poolIds : List Int) :
    ∃ cs1, initCollector cs (some g) list collectorName collector projectList poolIds (some d)
      = .ok cs1 := by
  by_cases h : 0 < Seconds g <;>
    simp [initCollector, deref, h, bind, Except.bind, pure, Except.pure]

/-- After `initArgparser` no scrape-time setting is nil. -/
theorem initArgparser_isSome (o : Opts) :
    (initArgparser o).ScrapeTimeGeneral = some (o.ScrapeTimeGeneral.getD o.ScrapeTime) ∧
    (initArgparser o).ScrapeTimePullRequest = some (o.ScrapeTimePullRequest.getD o.ScrapeTime) ∧
    (initArgparser o).ScrapeTimeBuild = some (o.ScrapeTimeBuild.getD o.ScrapeTime) ∧
    (initArgparser o).ScrapeTimeRelease = some (o.ScrapeTimeRelease.getD o.ScrapeTime) ∧
    (initArgparser o).ScrapeTimeAgentPool = some (o.ScrapeTimeAgentPool.getD o.ScrapeTime) ∧
    (initArgparser o).ScrapeTimeLatestBuild = some (o.ScrapeTimeLatestBuild.getD o.ScrapeTime) ∧
    (initArgparser o).ScrapeTime = o.ScrapeTime := by
  obtain ⟨t, g, b, r, p, l, a, f⟩ := o
  cases g <;> cases b <;> cases r <;> cases p <;> cases l <;> cases a <;>
    simp [initArgparser]

/-- What the code does: on the settings `initArgparser` leaves and a successful project
listing, `initMetricCollector` returns, and each of the seven collectors is started exactly
when the general scrape time is positive. -/
theorem initMetricCollector_started_iff_general (o : Opts) (projects : List String) :
    ∃ cs, initMetricCollector (initArgparser o) (.ok projects) = .ok cs ∧
      ∀ name ∈ collectorNames,
        (cs.started name = true ↔ 0 < o.ScrapeTimeGeneral.getD o.ScrapeTime) := by
  obtain ⟨hg, hp, hb, hr, ha, hl, -⟩ := initArgparser_isSome o
  by_cases h : 0 < o.ScrapeTimeGeneral.getD o.ScrapeTime
  · simp only [initMetricCollector, initCollector, hg, hp, hb, hr, ha, hl, deref, bind,
      Except.bind, pure, Except.pure, (Seconds_pos_iff _).mpr h, if_true]
    refine ⟨_, rfl, ?_⟩
    intro name hn
    simp only [collectorNames, List.mem_cons, List.mem_singleton, List.not_mem_nil,
      or_false] at hn
    rcases hn with rfl | rfl | rfl | rfl | rfl | rfl | rfl <;>
      simp [h, Collectors.started, Collectors.find, Collectors.put, List.lookup]
  · simp only [initMetricCollector, initCollector, hg, hp, hb, hr, ha, hl, deref, bind,
      Except.bind, pure, Except.pure, mt (Seconds_pos_iff _).mp h, if_false]
    refine ⟨_, rfl, ?_⟩
    intro name _
    simp [h, Collectors.started, Collectors.find]

/-- C3, the code at two failing inputs.  With the general scrape time at `15s` and the
pull-request scrape time at `0`, the `PullRequest` collector is registered and run with scrape
time `0`; with the general scrape time at `0` and the build scrape time at `5m`, the `Build`
collector is not started.  Every collector is gated on the general scrape time, not on its
own. -/
theorem initMetricCollector_gates_on_general_scrape_time :
    (ownScrapeTime (initArgparser optsPullRequestOff) "PullRequest" = some 0 ∧
      (initMetricCollector (initArgparser optsPullRequestOff) (.ok ["P"])).toOption.map
        (fun cs => (cs.find "PullRequest").map (fun c => c.scrapeTime)) = some (some 0)) ∧
    (ownScrapeTime (initArgparser optsGeneralOff) "Build" = some 300000000000 ∧
      (initMetricCollector (initArgparser optsGeneralOff) (.ok ["P"])).toOption.map
        (fun cs => cs.started "Build") = some false) := by
  decide!

/-- C5, counterexample.  With every collector enabled (the listing succeeding, all seven are
started), a failing project listing makes `initMetricCollector` panic: it does not return, and
no collector is started. -/
theorem initMetricCollector_listing_failure_not_contained :
    (initMetricCollector (initArgparser optsPullRequestOff) (.ok ["P"])).toOption.map
        (fun cs => collectorNames.map cs.started)
      = some [true, true, true, true, true, true, true] ∧
    ¬ ∃ cs, initMetricCollector (initArgparser optsPullRequestOff)
        (.error "ListProjects: connection refused") = .ok cs := by
  refine ⟨by decide!, ?_⟩
  rintro ⟨cs, h⟩
  simp [initMetricCollector, bind, Except.bind] at h

/-- C5, amended.  When the project listing fails, `initMetricCollector` panics with the error
of the listing, whatever the settings: start-up is aborted before any collector is looked at.
When the listing succeeds, `initMetricCollector` returns on the settings `initArgparser`
leaves. -/
theorem initMetricCollector_panics_on_listing_failure (o : Opts) (err : String)
    (projects : List String) :
    initMetricCollector o (.error err) = .error err ∧
    ∃ cs, initMetricCollector (initArgparser o) (.ok projects) = .ok cs := by
  refine ⟨rfl, ?_⟩
  obtain ⟨hg, hp, hb, hr, ha, hl, -⟩ := initArgparser_isSome o
  simp only [initMetricCollector, hg, hp, hb, hr, ha, hl, bind, Except.bind]
  obtain ⟨c1, h1⟩ := initCollector_ok ⟨[], [], [], []⟩ (o.ScrapeTimeGeneral.getD o.ScrapeTime)
    (o.ScrapeTimeGeneral.getD o.ScrapeTime) .general "General" "MetricsCollectorGeneral"
    projects []
  rw [h1]
  obtain ⟨c2, h2⟩ := initCollector_ok c1 (o.ScrapeTimeGeneral.getD o.ScrapeTime)
    (o.ScrapeTimeGeneral.getD o.ScrapeTime) .project "Project" "MetricsCollectorProject"
    projects []
  simp only [h2]
  obtain ⟨c3, h3⟩ := initCollector_ok c2 (o.ScrapeTimeGeneral.getD o.ScrapeTime)
    (o.ScrapeTimePullRequest.getD o.ScrapeTime) .project "PullRequest"
    "MetricsCollectorPullRequest" projects []
  simp only [h3]
  obtain ⟨c4, h4⟩ := initCollector_ok c3 (o.ScrapeTimeGeneral.getD o.ScrapeTime)
    (o.ScrapeTimeLatestBuild.getD o.ScrapeTime) .project "LatestBuild"
    "MetricsCollectorLatestBuild" projects []
  simp only [h4]
  obtain ⟨c5, h5⟩ := initCollector_ok c4 (o.ScrapeTimeGeneral.getD o.ScrapeTime)
    (o.ScrapeTimeBuild.getD o.ScrapeTime) .project "Build" "MetricsCollectorBuild" projects []
  simp only [h5]
  obtain ⟨c6, h6⟩ := initCollector_ok c5 (o.ScrapeTimeGeneral.getD o.ScrapeTime)
    (o.ScrapeTimeRelease.getD o.ScrapeTime) .project "Release" "MetricsCollectorRelease"
    projects []
  simp only [h6]
  obtain ⟨c7, h7⟩ := initCollector_ok c6 (o.ScrapeTimeGeneral.getD o.ScrapeTime)
    (o.ScrapeTimeAgentPool.getD o.ScrapeTime) .agentPool "AgentPool"
    "MetricsCollectorAgentPool" projects (initArgparser o).AzureDevopsFilterAgentPoolId
  simp only [h7]
  exact ⟨c7, rfl⟩

/-- C7, counterexample.  A build scrape time given as `0` (non-positive) is still `0` after
`initArgparser`; it is not replaced by the global scrape time of `15m`. -/
theorem initArgparser_keeps_non_positive :
    optsBuildOff.ScrapeTimeBuild = some 0 ∧
    (initArgparser optsBuildOff).ScrapeTimeBuild = some 0 ∧
    (initArgparser optsBuildOff).ScrapeTimeBuild ≠ some (initArgparser optsBuildOff).ScrapeTime := by
  decide

/-- C7, amended.  After `initArgparser` every per-task scrape time equals the global
`ScrapeTime` when its pointer was nil, and the given value otherwise, a non-positive value
included; the global `ScrapeTime` is unchanged. -/
theorem initArgparser_resolves_nil_only (o : Opts) :
    (initArgparser o).ScrapeTimeGeneral = some (o.ScrapeTimeGeneral.getD o.ScrapeTime) ∧
    (initArgparser o).ScrapeTimePullRequest = some (o.ScrapeTimePullRequest.getD o.ScrapeTime) ∧
    (initArgparser o).ScrapeTimeBuild = some (o.ScrapeTimeBuild.getD o.ScrapeTime) ∧
    (initArgparser o).ScrapeTimeRelease = some (o.ScrapeTimeRelease.getD o.ScrapeTime) ∧
    (initArgparser o).ScrapeTimeAgentPool = some (o.ScrapeTimeAgentPool.getD o.ScrapeTime) ∧
    (initArgparser o).ScrapeTimeLatestBuild = some (o.ScrapeTimeLatestBuild.getD o.ScrapeTime) ∧
    (initArgparser o).ScrapeTime = o.ScrapeTime :=
  initArgparser_isSome o

end Main
